import Mathlib

/-!
Verification of the audio-to-actuator pipeline in `src/main.rs`.

The program has two halves communicating over a bounded tokio mpsc channel of
capacity `SAMPLE_LIMIT = 16`:

* an audio callback (`TransformFn::Basic` closure, main.rs lines 70-91) that
  copies the frame, applies a first-order low-pass filter in place, takes the
  absolute value of the last filtered sample scaled by 10.0, and `try_send`s it
  into the channel (`Full` errors silently ignored, `Closed` errors logged);
* a control loop (main.rs lines 96-119) that `recv_many`s up to 16 samples,
  breaks when it receives 0 (channel closed and empty), averages the samples,
  clamps with `min(mean, 1.0)`, and issues a vibrate command to every device,
  logging per-device failures; after the loop the client disconnects.

Floating point (`f32`/`f64`) is modelled by `ℚ`: every claim here concerns
order/sign/clamping facts and exact values at small inputs, where exact
rational arithmetic and IEEE arithmetic agree.
-/

/-- SAMPLE_LIMIT from main.rs line 22: the channel capacity, "a maximum of 16
persisted samples at any given run". -/
def SAMPLE_LIMIT : Nat := 16

/-- State of the tokio `mpsc::channel::<f64>(SAMPLE_LIMIT)` relay
(main.rs line 52), observed between operations: the buffered samples in FIFO
order, whether the sender side has been dropped (producer closed) and whether
the receiver side has been dropped (consumer closed). No concurrent
interleaving is modelled: every claim about the relay stipulates "no
concurrent drain". -/
structure Relay where
  buffer : List ℚ
  senderClosed : Bool
  receiverClosed : Bool
deriving DecidableEq

/-- The relay as created at startup: empty, both sides alive. -/
def relay0 : Relay := ⟨[], false, false⟩

/-- Error type of tokio's `Sender::try_send`, as matched in main.rs line 86. -/
inductive TrySendError where
  | full
  | closed
deriving DecidableEq

/-- Error type of the spec-level `try_emit`: the relay's consumer side has
been destroyed. -/
inductive RelayClosed where
  | relayClosed
deriving DecidableEq

/-- Tokio `Sender::try_send`, modelled from its documented contract (the
channel itself is an external crate): fails with `closed` when the receiver
has been dropped, fails with `full` (dropping the value) when the buffer holds
`SAMPLE_LIMIT` items, otherwise appends the value. It never suspends. -/
def try_send (r : Relay) (v : ℚ) : Except TrySendError Unit × Relay :=
  if r.receiverClosed then (Except.error TrySendError.closed, r)
  else if SAMPLE_LIMIT ≤ r.buffer.length then (Except.error TrySendError.full, r)
  else (Except.ok (), { r with buffer := r.buffer ++ [v] })

/-- The producer-side relay write as the callback performs it
(main.rs lines 86-88): `try_send`, with a `Full` result silently ignored (the
new sample is dropped and the call counts as success) and only a `Closed`
result surfacing as the spec's `RelayClosed`. -/
def try_emit (r : Relay) (v : ℚ) : Except RelayClosed Unit × Relay :=
  match try_send r v with
  | (Except.error TrySendError.closed, r2) => (Except.error RelayClosed.relayClosed, r2)
  | (Except.error TrySendError.full, r2) => (Except.ok (), r2)
  | (Except.ok _, r2) => (Except.ok (), r2)

/-- Tokio `Receiver::recv_many` (main.rs line 98) restricted to the states in
which it does not suspend: it removes and returns up to `max` buffered samples
in insertion order. (When the buffer is empty it returns an empty list, which
matches the real call exactly when the sender is closed; the driver model
below only takes that branch in that case.) This realizes the spec's
`drain(max)`. -/
def recv_many (r : Relay) (max : Nat) : List ℚ × Relay :=
  (r.buffer.take max, { r with buffer := r.buffer.drop max })

/-- A sequence of producer-side writes with no intervening drain. -/
def emitAll (r : Relay) (vs : List ℚ) : Relay :=
  vs.foldl (fun a v => (try_emit a v).2) r

/-- The intensity aggregation of one control-loop tick (main.rs lines
106-109): arithmetic mean of the drained samples, clamped from above by 1.0
(`f64::min(mean_value, 1.0)`). No lower clamp is applied. -/
def aggregate (samples : List ℚ) : ℚ :=
  min (samples.sum / (samples.length : ℚ)) 1

/-- Loop of the first-order low-pass filter of the external `lowpass_filter`
crate, modelled from the spec's interface description (in-place single-pole
RC low-pass): each output sample is `prev + alpha * (x - prev)` where `prev`
is the previous output sample. -/
def lowpassGo (alpha prev : ℚ) : List ℚ → List ℚ
  | [] => []
  | x :: xs => (prev + alpha * (x - prev)) :: lowpassGo alpha (prev + alpha * (x - prev)) xs

/-- Modelled from the spec: the external `lowpass_filter` crate (called at
main.rs line 72 with cutoff 80.0 Hz) applies a first-order low-pass in place,
so the output has the length of the input. The filter coefficient
`alpha = dt / (rc + dt)` with `rc = 1 / (2 * pi * cutoff)` and
`dt = 1 / sampling_rate` is irrational (it involves pi), so it is kept as a
parameter: every sampling rate R > 0 determines some such `alpha`, and the
theorems below hold for every `alpha`. -/
def lowpass_filter (alpha : ℚ) : List ℚ → List ℚ
  | [] => []
  | x :: xs => (alpha * x) :: lowpassGo alpha (alpha * x) xs

/-- The signal-conditioning part of the audio callback (main.rs lines 71-78):
filter a copy of the frame, then read the last filtered sample
(`raw_values.last().unwrap()` — `none` here models the `unwrap` panic on an
empty frame), take its absolute value and multiply by the fixed gain 10.0.
Returns the filtered frame (handed back to the audio subsystem) and the
intensity sample. -/
def condition (alpha : ℚ) (frame : List ℚ) : Option (List ℚ × ℚ) :=
  match (lowpass_filter alpha frame).getLast? with
  | none => none
  | some last => some (lowpass_filter alpha frame, |last| * 10)

/-- The whole audio callback (main.rs lines 70-91): condition the frame, then
look up the global sender (`GLOBAL_TX.get()` — `none` models the slot never
having been filled, in which case the callback logs and still returns the
filtered values), then `try_emit` the intensity, ignoring both possible
failures (a `Closed` error is only logged). The callback's result is `none`
exactly when the `unwrap` on the empty frame panics; otherwise it is the
filtered frame plus the updated sender state. -/
def callback (alpha : ℚ) (globalTx : Option Relay) (frame : List ℚ) :
    Option (List ℚ × Option Relay) :=
  match condition alpha frame with
  | none => none
  | some (raw, firstFreq) =>
    match globalTx with
    | none => some (raw, none)
    | some r => some (raw, some (try_emit r firstFreq).2)

/-- An actuator endpoint (a connected buttplug device): its name, and whether
its vibrate command fails (modelling `device.vibrate(..)` returning `Err` at
main.rs line 113). -/
structure Endpoint where
  name : String
  fails : Bool
deriving DecidableEq

/-- Observable actions of the control loop: a vibrate command delivered to a
device with a given intensity, a vibrate command attempted but failed (and
logged, main.rs line 114), and a device disconnected at shutdown. -/
inductive Event where
  | dispatched (name : String) (intensity : ℚ)
  | dispatchFailed (name : String)
  | disconnected (name : String)
deriving DecidableEq

/-- One dispatch pass of the control loop (main.rs lines 112-116): the
command is attempted on every endpoint in order; a failing endpoint yields a
logged failure event and the iteration simply continues with the next
endpoint. -/
def dispatch (eps : List Endpoint) (v : ℚ) : List Event :=
  eps.map fun e => if e.fails then Event.dispatchFailed e.name else Event.dispatched e.name v

/-- Result of running the driver loop: either it exited its loop and ran the
final disconnect (the spec's `Stopped` state), or it is suspended waiting on
the relay (or the model's fuel ran out) — in both cases with the trace of
events it produced. -/
inductive DriverOutcome where
  | stopped (trace : List Event)
  | suspended (trace : List Event)
deriving DecidableEq

/-- Prepend events produced by one tick to the outcome of the rest of the
loop. -/
def DriverOutcome.prepend (evs : List Event) : DriverOutcome → DriverOutcome
  | DriverOutcome.stopped t => DriverOutcome.stopped (evs ++ t)
  | DriverOutcome.suspended t => DriverOutcome.suspended (evs ++ t)

/-- The event trace of an outcome. -/
def DriverOutcome.trace : DriverOutcome → List Event
  | DriverOutcome.stopped t => t
  | DriverOutcome.suspended t => t

/-- The control loop of `main` (main.rs lines 96-121). `inc` schedules the
producer-side emissions delivered before each tick (the claims' "no
concurrent drain": emissions and drains do not interleave within a tick).
Each iteration mirrors the code: drain up to `SAMPLE_LIMIT` samples with
`recv_many`; if it returned 0 samples — which, past the suspension guard,
happens exactly when the producer is closed and the buffer empty — break out
of the loop and disconnect every endpoint (modelled from the spec:
`client.disconnect()` at main.rs line 121 tears down every endpoint
connection); otherwise aggregate, dispatch to all endpoints, and loop.
`fuel` bounds the number of ticks so the model is total; exhausted fuel and a
would-be-forever wait are both `suspended`. -/
def driverRun : Nat → Relay → List Endpoint → List (List ℚ) → DriverOutcome
  | 0, _, _, _ => DriverOutcome.suspended []
  | fuel+1, r, eps, inc =>
    if (emitAll r (inc.headD [])).buffer.isEmpty
        && !(emitAll r (inc.headD [])).senderClosed then
      DriverOutcome.suspended []
    else if (recv_many (emitAll r (inc.headD [])) SAMPLE_LIMIT).1.length = 0 then
      DriverOutcome.stopped (eps.map fun e => Event.disconnected e.name)
    else
      (driverRun fuel (recv_many (emitAll r (inc.headD [])) SAMPLE_LIMIT).2 eps
          inc.tail).prepend
        (dispatch eps (aggregate (recv_many (emitAll r (inc.headD [])) SAMPLE_LIMIT).1))

/-! ### Helper lemmas (shared between claims) -/

theorem lowpassGo_length (alpha prev : ℚ) (l : List ℚ) :
    (lowpassGo alpha prev l).length = l.length := by
  induction l generalizing prev with
  | nil => rfl
  | cons x xs ih => simp [lowpassGo, ih]

theorem lowpass_filter_length (alpha : ℚ) (l : List ℚ) :
    (lowpass_filter alpha l).length = l.length := by
  cases l with
  | nil => rfl
  | cons x xs => simp [lowpass_filter, lowpassGo_length]

theorem lowpass_filter_ne_nil (alpha : ℚ) (frame : List ℚ) (h : frame ≠ []) :
    lowpass_filter alpha frame ≠ [] := by
  intro hc
  apply h
  have hlen := lowpass_filter_length alpha frame
  rw [hc] at hlen
  exact List.eq_nil_of_length_eq_zero hlen.symm

theorem lowpass_getLast_ex (alpha : ℚ) (frame : List ℚ) (h : frame ≠ []) :
    ∃ l, (lowpass_filter alpha frame).getLast? = some l := by
  have hne := lowpass_filter_ne_nil alpha frame h
  cases hlp : lowpass_filter alpha frame with
  | nil => exact absurd hlp hne
  | cons a as =>
    exact ⟨(a :: as).getLast (by simp), by rw [List.getLast?_eq_getLast _ (by simp)]⟩

theorem condition_eq (alpha : ℚ) (frame : List ℚ) (l : ℚ)
    (hl : (lowpass_filter alpha frame).getLast? = some l) :
    condition alpha frame = some (lowpass_filter alpha frame, |l| * 10) := by
  unfold condition
  rw [hl]


/-! ### C1 — aggregation clamp and range -/

/-- C1 counterexample: as stated, the claim is false — `aggregate` applies no
lower clamp, so a negative drained sample yields an aggregated intensity
outside [0.0, 1.0]: `aggregate [-5] = -5 < 0`. -/
theorem aggregate_negative_cex :
    aggregate [(-5 : ℚ)] = -5 ∧ ¬ (0 ≤ aggregate [(-5 : ℚ)]) := by
  constructor <;> norm_num [aggregate]

/-- C1 (amended): for every non-empty drained sample sequence the aggregated
intensity equals `min(mean, 1.0)` and is at most 1.0 regardless of input
magnitudes; it lies in [0.0, 1.0] whenever every sample is non-negative (as
the conditioner guarantees), but a negative input can drive it below 0.0;
in particular `aggregate [5, 5] = 1`. -/
theorem aggregate_clamp_bounds (s : List ℚ) (h : s ≠ []) :
    aggregate s = min (s.sum / (s.length : ℚ)) 1 ∧
    aggregate s ≤ 1 ∧
    ((∀ x ∈ s, 0 ≤ x) → 0 ≤ aggregate s) ∧
    aggregate [5, 5] = 1 := by
  refine ⟨rfl, min_le_right _ _, fun hx => ?_, by norm_num [aggregate]⟩
  exact le_min (div_nonneg (List.sum_nonneg hx) (Nat.cast_nonneg _)) zero_le_one

/-- C1 witness: the amended theorem applied to the concrete drained sequence
[5, 5]. -/
theorem aggregate_clamp_bounds_witness :
    ([(5 : ℚ), 5] ≠ ([] : List ℚ)) ∧ (0 ≤ aggregate [5, 5] ∧ aggregate [5, 5] ≤ 1) :=
  ⟨by simp,
   (aggregate_clamp_bounds [5, 5] (by simp)).2.2.1 (by norm_num),
   (aggregate_clamp_bounds [5, 5] (by simp)).2.1⟩

/-! ### C8 — single-sample aggregation -/

/-- C8 counterexample: single-sample aggregation is not the identity — the
upper clamp fires, `aggregate [5] = min 5 1 = 1 ≠ 5`. -/
theorem aggregate_singleton_cex : aggregate [(5 : ℚ)] ≠ 5 := by
  norm_num [aggregate]

/-- C8 (amended): for every single-sample input [x] with `x ≤ 1.0` (the whole
actuation range), `aggregate [x] = x`; above 1.0 the clamp makes it 1.0. -/
theorem aggregate_singleton_id (x : ℚ) (h : x ≤ 1) : aggregate [x] = x := by
  have hx : aggregate [x] = min x 1 := by norm_num [aggregate]
  rw [hx, min_eq_left h]

/-- C8 witness: the amended theorem applied at x = 1/2. -/
theorem aggregate_singleton_id_witness :
    ((1 : ℚ)/2 ≤ 1) ∧ aggregate [(1 : ℚ)/2] = 1/2 :=
  ⟨by norm_num, aggregate_singleton_id (1/2) (by norm_num)⟩

/-! ### C2 — the signal conditioner -/

/-- C2: for every non-empty frame and every filter coefficient (one exists
for each sampling rate R > 0), `condition` returns the filtered frame — of
the same length as the input — together with an intensity equal to the
absolute value of the filtered frame's last sample times the gain 10.0, and
that intensity is non-negative. -/
theorem condition_spec (alpha : ℚ) (frame : List ℚ) (h : frame ≠ []) :
    ∃ filtered intensity,
      condition alpha frame = some (filtered, intensity) ∧
      filtered = lowpass_filter alpha frame ∧
      filtered.length = frame.length ∧
      (∃ l, filtered.getLast? = some l ∧ intensity = |l| * 10) ∧
      0 ≤ intensity := by
  obtain ⟨l, hl⟩ := lowpass_getLast_ex alpha frame h
  exact ⟨lowpass_filter alpha frame, |l| * 10, condition_eq alpha frame l hl, rfl,
    lowpass_filter_length alpha frame, ⟨l, hl, rfl⟩, by positivity⟩

/-- C2 witness: the theorem applied to the concrete frame [1] with
coefficient 1/2. -/
theorem condition_spec_witness :
    (([(1 : ℚ)] : List ℚ) ≠ []) ∧
    (∃ filtered intensity,
      condition (1/2) [1] = some (filtered, intensity) ∧
      filtered = lowpass_filter (1/2) [1] ∧
      filtered.length = ([(1 : ℚ)] : List ℚ).length ∧
      (∃ l, filtered.getLast? = some l ∧ intensity = |l| * 10) ∧
      0 ≤ intensity) :=
  ⟨by simp, condition_spec (1/2) [1] (by simp)⟩

/-! ### C9 — the audio callback never fails fatally (except the empty frame) -/

/-- C9 counterexample: on the empty frame the callback does not return its
best-effort filtered output — `raw_values.last().unwrap()` panics (modelled
as `none`), even with a perfectly healthy relay. -/
theorem callback_empty_frame_cex :
    callback (1/2) (some relay0) ([] : List ℚ) = none := rfl

/-- C9 (amended): for every NON-empty frame and every relay state — global
sender unset (`none`), relay full, or relay closed — the callback returns its
best-effort filtered output (the low-pass-filtered frame); no relay failure
propagates out of the callback. On the empty frame, however, the callback
panics on `unwrap`. -/
theorem callback_total_nonempty (alpha : ℚ) (tx : Option Relay) (frame : List ℚ)
    (h : frame ≠ []) :
    ∃ tx2, callback alpha tx frame = some (lowpass_filter alpha frame, tx2) := by
  obtain ⟨l, hl⟩ := lowpass_getLast_ex alpha frame h
  unfold callback
  rw [condition_eq alpha frame l hl]
  cases tx with
  | none => exact ⟨none, rfl⟩
  | some r => exact ⟨some (try_emit r (|l| * 10)).2, rfl⟩

/-- C9 witness: the amended theorem applied to the frame [1] with the global
sender unset — the failure mode the source logs as "Failed to get global
TX..." — still returns the filtered frame. -/
theorem callback_total_nonempty_witness :
    (([(1 : ℚ)] : List ℚ) ≠ []) ∧
    (∃ tx2, callback (1/2) none [(1 : ℚ)] = some (lowpass_filter (1/2) [1], tx2)) :=
  ⟨by simp, callback_total_nonempty (1/2) none [1] (by simp)⟩

/-! ### Relay helper lemma -/

/-- Emitting a sequence of values into a relay whose consumer is alive
appends exactly as many of its first values as fit under `SAMPLE_LIMIT`; once
the buffer is full every further value is dropped. The closed flags are
untouched. -/
theorem emitAll_open (r : Relay) (vs : List ℚ) (h : r.receiverClosed = false) :
    (emitAll r vs).buffer = r.buffer ++ vs.take (SAMPLE_LIMIT - r.buffer.length) ∧
    (emitAll r vs).senderClosed = r.senderClosed ∧
    (emitAll r vs).receiverClosed = false := by
  induction vs generalizing r with
  | nil => simp [emitAll, h]
  | cons v vs ih =>
    have hstep : emitAll r (v :: vs) = emitAll (try_emit r v).2 vs := rfl
    by_cases hlen : SAMPLE_LIMIT ≤ r.buffer.length
    · have he : (try_emit r v).2 = r := by
        simp [try_emit, try_send, h, hlen]
      rw [hstep, he]
      obtain ⟨h1, h2, h3⟩ := ih r h
      refine ⟨?_, h2, h3⟩
      rw [h1]
      have hz : SAMPLE_LIMIT - r.buffer.length = 0 := Nat.sub_eq_zero_of_le hlen
      simp [hz]
    · have he : (try_emit r v).2 = { r with buffer := r.buffer ++ [v] } := by
        simp [try_emit, try_send, h, hlen]
      rw [hstep, he]
      obtain ⟨h1, h2, h3⟩ := ih { r with buffer := r.buffer ++ [v] } (by simp [h])
      refine ⟨?_, h2, h3⟩
      rw [h1]
      have hk : SAMPLE_LIMIT - r.buffer.length = (SAMPLE_LIMIT - (r.buffer.length + 1)) + 1 := by
        omega
      simp only [List.length_append, List.length_singleton, hk, List.take_succ_cons,
        List.append_assoc, List.singleton_append]

/-! ### C3 — relay overflow behavior -/

/-- C3 counterexample: after 17 emissions 0..16 into the fresh relay with no
concurrent drain, a drain returns the FIRST 16 values 0..15 — the most recent
value 16 is the one silently dropped, contradicting "the most recent 16
emitted values are favored (older ones are the ones silently dropped)". -/
theorem relay_overflow_cex :
    (recv_many (emitAll relay0 [0, 1, 2, 3, 4, 5, 6, 7, 8, 9, 10, 11, 12, 13, 14, 15, 16])
        SAMPLE_LIMIT).1
      = [0, 1, 2, 3, 4, 5, 6, 7, 8, 9, 10, 11, 12, 13, 14, 15] ∧
    ((16 : ℚ) ∉ (recv_many (emitAll relay0 [0, 1, 2, 3, 4, 5, 6, 7, 8, 9, 10, 11, 12, 13, 14, 15, 16])
        SAMPLE_LIMIT).1) := by
  decide

/-- C3 (amended): for every sequence of more than 16 emissions into the fresh
relay with no concurrent drain, a subsequent drain returns exactly 16 values —
the OLDEST 16, in emission order (a prefix of the emitted sequence, so nothing
is duplicated or reordered); the newest values are the ones silently dropped;
and at most SAMPLE_LIMIT samples are buffered after any number of
emissions. -/
theorem relay_overflow_keeps_oldest (vs : List ℚ) (h : SAMPLE_LIMIT < vs.length) :
    (recv_many (emitAll relay0 vs) SAMPLE_LIMIT).1 = vs.take SAMPLE_LIMIT ∧
    (recv_many (emitAll relay0 vs) SAMPLE_LIMIT).1.length = SAMPLE_LIMIT ∧
    (∃ dropped, vs = (recv_many (emitAll relay0 vs) SAMPLE_LIMIT).1 ++ dropped) ∧
    (∀ n, (emitAll relay0 (vs.take n)).buffer.length ≤ SAMPLE_LIMIT) := by
  have hb : (emitAll relay0 vs).buffer = vs.take SAMPLE_LIMIT := by
    have hopen := (emitAll_open relay0 vs rfl).1
    simpa [relay0] using hopen
  have h1 : (recv_many (emitAll relay0 vs) SAMPLE_LIMIT).1 = vs.take SAMPLE_LIMIT := by
    simp [recv_many, hb, List.take_take]
  refine ⟨h1, ?_, ?_, ?_⟩
  · rw [h1, List.length_take]
    omega
  · exact ⟨vs.drop SAMPLE_LIMIT, by rw [h1, List.take_append_drop]⟩
  · intro n
    have hopen := (emitAll_open relay0 (vs.take n) rfl).1
    rw [hopen]
    simp only [relay0, List.nil_append, List.length_nil, Nat.sub_zero, List.length_take]
    omega

/-- C3 witness: the amended theorem applied to the 17 concrete emissions
0..16. -/
theorem relay_overflow_keeps_oldest_witness :
    (SAMPLE_LIMIT
      < ([0, 1, 2, 3, 4, 5, 6, 7, 8, 9, 10, 11, 12, 13, 14, 15, 16] : List ℚ).length) ∧
    ((recv_many (emitAll relay0 [0, 1, 2, 3, 4, 5, 6, 7, 8, 9, 10, 11, 12, 13, 14, 15, 16])
        SAMPLE_LIMIT).1.length = SAMPLE_LIMIT) :=
  ⟨by decide,
   (relay_overflow_keeps_oldest [0, 1, 2, 3, 4, 5, 6, 7, 8, 9, 10, 11, 12, 13, 14, 15, 16]
     (by decide)).2.1⟩

/-! ### C4 — relay FIFO below capacity -/

/-- C4: for every sequence of at most 16 emissions into the fresh relay with
no concurrent drain, a single drain returns all of them, in the original
emission order. -/
theorem relay_fifo_inorder (vs : List ℚ) (h : vs.length ≤ SAMPLE_LIMIT) :
    (recv_many (emitAll relay0 vs) SAMPLE_LIMIT).1 = vs := by
  have hb : (emitAll relay0 vs).buffer = vs.take SAMPLE_LIMIT := by
    have hopen := (emitAll_open relay0 vs rfl).1
    simpa [relay0] using hopen
  rw [List.take_of_length_le h] at hb
  simp [recv_many, hb, List.take_of_length_le h]

/-- C4 witness: the theorem applied to the two concrete emissions 1, 2. -/
theorem relay_fifo_inorder_witness :
    (([1, 2] : List ℚ).length ≤ SAMPLE_LIMIT) ∧
    (recv_many (emitAll relay0 [1, 2]) SAMPLE_LIMIT).1 = [1, 2] :=
  ⟨by decide, relay_fifo_inorder [1, 2] (by decide)⟩

/-! ### C5 — try_emit never blocks -/

/-- C5: `try_emit` is a total function of the relay state (it never
suspends); it fails with `RelayClosed` exactly when the consumer side has
been destroyed; when the consumer is alive and the buffer is full, the call
succeeds and the new sample is dropped (state unchanged); when the consumer
is alive and the buffer has room, the call succeeds and appends the
sample. -/
theorem try_emit_never_blocks (r : Relay) (v : ℚ) :
    ((try_emit r v).1 = Except.error RelayClosed.relayClosed ↔ r.receiverClosed = true) ∧
    (r.receiverClosed = false → SAMPLE_LIMIT ≤ r.buffer.length →
      (try_emit r v).1 = Except.ok () ∧ (try_emit r v).2 = r) ∧
    (r.receiverClosed = false → r.buffer.length < SAMPLE_LIMIT →
      (try_emit r v).1 = Except.ok () ∧
      (try_emit r v).2 = { r with buffer := r.buffer ++ [v] }) := by
  by_cases hc : r.receiverClosed
  · simp [try_emit, try_send, hc]
  · by_cases hlen : SAMPLE_LIMIT ≤ r.buffer.length
    · simp [try_emit, try_send, hc, hlen]
    · simp [try_emit, try_send, hc, hlen]

/-- C5 witness: a full, open relay — `try_emit` succeeds and leaves the relay
unchanged, dropping the sample. -/
theorem try_emit_never_blocks_witness :
    ((Relay.mk (List.replicate SAMPLE_LIMIT 0) false false).receiverClosed = false) ∧
    (SAMPLE_LIMIT ≤ (Relay.mk (List.replicate SAMPLE_LIMIT 0) false false).buffer.length) ∧
    ((try_emit (Relay.mk (List.replicate SAMPLE_LIMIT 0) false false) 3).1 = Except.ok () ∧
     (try_emit (Relay.mk (List.replicate SAMPLE_LIMIT 0) false false) 3).2
       = Relay.mk (List.replicate SAMPLE_LIMIT 0) false false) :=
  ⟨rfl, by decide,
   (try_emit_never_blocks (Relay.mk (List.replicate SAMPLE_LIMIT 0) false false) 3).2.1
     rfl (by decide)⟩

/-! ### Driver helper lemma -/

theorem DriverOutcome.trace_prepend (evs : List Event) (o : DriverOutcome) :
    (o.prepend evs).trace = evs ++ o.trace := by
  cases o <;> rfl

/-! ### C6 — clean shutdown on end-of-stream -/

/-- C6: when the producer side is closed and no samples remain, the very next
tick of the driver exits the loop without any further dispatch — the run
result is `stopped` (the spec's `Stopped` state) whose whole remaining trace
is the final disconnect pass — and, for distinctly named endpoints, every
endpoint receives a disconnect event exactly once before the driver
returns. -/
theorem driver_stop_disconnects (fuel : Nat) (r : Relay) (eps : List Endpoint)
    (hbuf : r.buffer = []) (hclosed : r.senderClosed = true) :
    driverRun (fuel+1) r eps []
      = DriverOutcome.stopped (eps.map fun e => Event.disconnected e.name) ∧
    ((eps.map Endpoint.name).Nodup →
      ∀ e ∈ eps,
        (driverRun (fuel+1) r eps []).trace.count (Event.disconnected e.name) = 1) := by
  have hrun : driverRun (fuel+1) r eps []
      = DriverOutcome.stopped (eps.map fun e => Event.disconnected e.name) := by
    simp [driverRun, emitAll, hbuf, hclosed, recv_many]
  refine ⟨hrun, fun hnd e he => ?_⟩
  rw [hrun]
  show ((eps.map fun x => Event.disconnected x.name).count (Event.disconnected e.name)) = 1
  have hinj : Function.Injective Event.disconnected := fun a b hab => by
    injection hab
  rw [show (eps.map fun x => Event.disconnected x.name)
        = (eps.map Endpoint.name).map Event.disconnected from (List.map_map _ _ _).symm]
  rw [List.count_map_of_injective _ _ hinj]
  exact List.count_eq_one_of_mem hnd (List.mem_map.mpr ⟨e, he, rfl⟩)

/-- C6 witness: the theorem applied to an empty, producer-closed relay and
one endpoint named "a". -/
theorem driver_stop_disconnects_witness :
    ((Relay.mk [] true false).buffer = []) ∧
    ((Relay.mk [] true false).senderClosed = true) ∧
    (driverRun 1 (Relay.mk [] true false) [Endpoint.mk "a" false] []
      = DriverOutcome.stopped [Event.disconnected "a"]) :=
  ⟨rfl, rfl,
   (driver_stop_disconnects 0 (Relay.mk [] true false) [Endpoint.mk "a" false] rfl rfl).1⟩

/-! ### C7 — per-endpoint dispatch independence -/

/-- C7: the dispatch pass issues the set-intensity command to every endpoint
independently — the result list has one entry per endpoint, and the entry for
the i-th endpoint is a delivered command or a recorded per-device failure
according to that endpoint alone, regardless of any other endpoint's
failure; moreover a tick of the driver that drained samples always proceeds
to the next iteration after dispatching, for EVERY endpoint list — including
all-failing ones — so no per-endpoint failure terminates the pipeline
loop. -/
theorem dispatch_independent (eps : List Endpoint) (v : ℚ) :
    (dispatch eps v).length = eps.length ∧
    (∀ (i : Nat) (e : Endpoint), eps[i]? = some e →
      (dispatch eps v)[i]?
        = some (if e.fails then Event.dispatchFailed e.name
                else Event.dispatched e.name v)) ∧
    (∀ fuel r inc, (emitAll r (inc.headD [])).buffer ≠ [] →
      driverRun (fuel+1) r eps inc
        = ((driverRun fuel (recv_many (emitAll r (inc.headD [])) SAMPLE_LIMIT).2 eps
              inc.tail).prepend
            (dispatch eps (aggregate (recv_many (emitAll r (inc.headD [])) SAMPLE_LIMIT).1)))) := by
  refine ⟨by simp [dispatch], ?_, ?_⟩
  · intro i e he
    rw [dispatch, List.getElem?_map, he]
    rfl
  · intro fuel r inc hne
    have hguard : ((emitAll r (inc.headD [])).buffer.isEmpty
        && !(emitAll r (inc.headD [])).senderClosed) = false := by
      cases hb : (emitAll r (inc.headD [])).buffer with
      | nil => exact absurd hb hne
      | cons a as => simp [hb]
    have hlen0 : (emitAll r (inc.headD [])).buffer.length ≠ 0 := by
      intro hz
      exact hne (List.eq_nil_of_length_eq_zero hz)
    have hlen : (recv_many (emitAll r (inc.headD [])) SAMPLE_LIMIT).1.length ≠ 0 := by
      simp only [recv_many, List.length_take, SAMPLE_LIMIT]
      omega
    have hg : ((emitAll r (inc.headD [])).buffer.isEmpty
        && !(emitAll r (inc.headD [])).senderClosed) ≠ true := by
      rw [hguard]
      exact Bool.false_ne_true
    rw [driverRun, if_neg hg, if_neg hlen]

/-- C7 witness: the theorem applied to the endpoint list [A (fails),
B (succeeds)] — the command is still issued to B, and the per-endpoint
results distinguish the two outcomes. -/
theorem dispatch_independent_witness :
    (([Endpoint.mk "A" true, Endpoint.mk "B" false] : List Endpoint)[1]?
      = some (Endpoint.mk "B" false)) ∧
    ((dispatch [Endpoint.mk "A" true, Endpoint.mk "B" false] (1/2))[1]?
      = some (Event.dispatched "B" (1/2))) ∧
    ((dispatch [Endpoint.mk "A" true, Endpoint.mk "B" false] (1/2))[0]?
      = some (Event.dispatchFailed "A")) :=
  ⟨rfl,
   (dispatch_independent [Endpoint.mk "A" true, Endpoint.mk "B" false] (1/2)).2.1 1
     (Endpoint.mk "B" false) rfl,
   (dispatch_independent [Endpoint.mk "A" true, Endpoint.mk "B" false] (1/2)).2.1 0
     (Endpoint.mk "A" true) rfl⟩

/-! ### C10 — the mean is only ever taken over a non-empty drain -/

/-- C10: every intensity the driver ever dispatches was computed by
`aggregate` on a NON-empty drained sample list — the loop breaks before
aggregation when the drain returns zero samples — so the division by the list
length never divides by zero (the denominator, as a rational, is non-zero at
every aggregation the loop performs). -/
theorem dispatched_from_nonempty_drain (fuel : Nat) (r : Relay) (eps : List Endpoint)
    (inc : List (List ℚ)) (n : String) (v : ℚ)
    (h : Event.dispatched n v ∈ (driverRun fuel r eps inc).trace) :
    ∃ vals : List ℚ, vals ≠ [] ∧ ((vals.length : ℚ) ≠ 0) ∧ v = aggregate vals := by
  induction fuel generalizing r inc with
  | zero => simp [driverRun, DriverOutcome.trace] at h
  | succ fuel ih =>
    rw [driverRun] at h
    by_cases hguard : ((emitAll r (inc.headD [])).buffer.isEmpty
        && !(emitAll r (inc.headD [])).senderClosed) = true
    · rw [if_pos hguard] at h
      simp [DriverOutcome.trace] at h
    · rw [if_neg hguard] at h
      by_cases hlen : (recv_many (emitAll r (inc.headD [])) SAMPLE_LIMIT).1.length = 0
      · rw [if_pos hlen] at h
        simp [DriverOutcome.trace] at h
      · rw [if_neg hlen] at h
        rw [DriverOutcome.trace_prepend] at h
        rcases List.mem_append.mp h with hmem | hmem
        · rw [dispatch] at hmem
          obtain ⟨e, he, heq⟩ := List.mem_map.mp hmem
          refine ⟨(recv_many (emitAll r (inc.headD [])) SAMPLE_LIMIT).1,
            fun hc => hlen (by rw [hc]; rfl), Nat.cast_ne_zero.mpr hlen, ?_⟩
          by_cases hf : e.fails
          · rw [if_pos hf] at heq
            exact absurd heq (by simp)
          · rw [if_neg hf] at heq
            injection heq with h1 h2
            exact h2.symm
        · exact ih _ _ hmem

/-- C10 witness: a concrete completed run — one buffered sample 1 with the
producer closed, one healthy endpoint "A" — in whose trace the dispatched
intensity 1 appears, so the theorem yields the non-empty drained list behind
it. -/
theorem dispatched_from_nonempty_drain_witness :
    (Event.dispatched "A" 1
      ∈ (driverRun 2 (Relay.mk [(1 : ℚ)] true false) [Endpoint.mk "A" false] []).trace) ∧
    (∃ vals : List ℚ, vals ≠ [] ∧ ((vals.length : ℚ) ≠ 0) ∧ (1 : ℚ) = aggregate vals) := by
  have haggr : aggregate [(1 : ℚ)] = 1 := by norm_num [aggregate]
  have hrun : driverRun 2 (Relay.mk [(1 : ℚ)] true false) [Endpoint.mk "A" false] []
      = DriverOutcome.stopped
          [Event.dispatched "A" (aggregate [1]), Event.disconnected "A"] := rfl
  have hmem : Event.dispatched "A" 1
      ∈ (driverRun 2 (Relay.mk [(1 : ℚ)] true false) [Endpoint.mk "A" false] []).trace := by
    rw [hrun]
    simp [DriverOutcome.trace, haggr]
  exact ⟨hmem,
    dispatched_from_nonempty_drain 2 (Relay.mk [(1 : ℚ)] true false)
      [Endpoint.mk "A" false] [] "A" 1 hmem⟩
